import Mathlib

/-!
Shallow embedding of the COGnition HPC dashboard (src/app.py and
src/auth/auth_db.py): the remote-session state, the filesystem navigator,
the file editor's load path, the command builders sent to the remote shell,
the job-builder's module/partition handling, and the credential check.
Strings are manipulated through their character lists with structural
helper functions so every definition evaluates by kernel reduction.
-/

/-! ### Character-list string helpers (Python string primitives) -/

/-- Split a character list at every occurrence of the separator character,
keeping empty pieces: the semantics of Python `s.split(sep)` for a one-character
separator. -/
def splitOnChar (sep : Char) : List Char → List (List Char)
  | [] => [[]]
  | c :: cs =>
    match splitOnChar sep cs with
    | [] => [[]]
    | h :: t => if c = sep then [] :: h :: t else (c :: h) :: t

/-- Split a character list at every character satisfying the predicate,
keeping empty pieces. -/
def splitOnPred (p : Char → Bool) : List Char → List (List Char)
  | [] => [[]]
  | c :: cs =>
    match splitOnPred p cs with
    | [] => [[]]
    | h :: t => if p c then [] :: h :: t else (c :: h) :: t

/-- Python `s.split()` — split on runs of whitespace, dropping empty pieces. -/
def pySplitWs (s : String) : List String :=
  ((splitOnPred Char.isWhitespace s.data).filter (· ≠ [])).map String.mk

/-- Python `sep.join(parts)` / `str.join`. -/
def strIntercalate (sep : String) : List String → String
  | [] => ""
  | [x] => x
  | x :: y :: xs => x ++ sep ++ strIntercalate sep (y :: xs)

/-- `s.startswith(p)` as a Bool on the underlying character lists. -/
def strStartsWith (s p : String) : Bool := p.data.isPrefixOf s.data

/-- Python `s.rstrip('/')`. -/
def rstripSlash (s : String) : String :=
  String.mk (s.data.reverse.dropWhile (· = '/')).reverse

/-- Python `s.strip()` — strip leading and trailing whitespace. -/
def stripStr (s : String) : String :=
  String.mk ((s.data.dropWhile Char.isWhitespace).reverse.dropWhile
    Char.isWhitespace).reverse

/-- Lexicographic code-point comparison on character lists: Python's
`<=` on strings restricted to what `sorted` needs. -/
def charListLe : List Char → List Char → Bool
  | [], _ => true
  | _ :: _, [] => false
  | a :: as, b :: bs =>
    if a.toNat < b.toNat then true
    else if b.toNat < a.toNat then false
    else charListLe as bs

/-- Python string `<=` (code-point lexicographic), used by `sorted`. -/
def strLe (a b : String) : Bool := charListLe a.data b.data

/-! ### posixpath primitives (os.path on the POSIX flavour used by app.py) -/

/-- `posixpath.join(a, b)` (two-argument form). -/
def pyJoin (a b : String) : String :=
  if strStartsWith b "/" then b
  else if a = "" ∨ strStartsWith (String.mk a.data.reverse) "/" then a ++ b
  else a ++ "/" ++ b

/-- `posixpath.dirname(p)`: everything before the last slash, with trailing
slashes stripped unless the head is all slashes. -/
def pyDirname (p : String) : String :=
  let cs := p.data
  match cs.reverse.findIdx? (· = '/') with
  | none => ""
  | some k =>
    let head := cs.take (cs.length - k)
    if head.all (· = '/') then String.mk head
    else String.mk (head.reverse.dropWhile (· = '/')).reverse

/-- `posixpath.normpath(p)`: collapse repeated slashes and `.` components,
resolve `..` against preceding components, preserving the POSIX rule that
exactly two leading slashes are kept. -/
def pyNormpath (path : String) : String :=
  if path = "" then "." else
  let slashes : Nat :=
    if strStartsWith path "/" then
      if strStartsWith path "//" ∧ ¬ strStartsWith path "///" then 2 else 1
    else 0
  let comps := (splitOnChar '/' path.data).map String.mk
  let newComps := comps.foldl (fun acc comp =>
    if comp = "" ∨ comp = "." then acc
    else if comp ≠ ".." ∨ (slashes = 0 ∧ acc = []) ∨ acc.getLast? = some ".." then
      acc ++ [comp]
    else acc.dropLast) []
  let res := String.mk (List.replicate slashes '/') ++ strIntercalate "/" newComps
  if res = "" then "." else res

/-! ### Directory listing (`get_hpc_files`, app.py 1755-1800) -/

/-- The two entry kinds the listing classifies rows into. -/
inductive FKind where
  | File
  | Directory
deriving DecidableEq, Repr

/-- One row of the file browser: the dict
`{name, type, size, owner, perms}` built by `get_hpc_files`. -/
structure DirEntry where
  name : String
  type : FKind
  size : String
  owner : String
  perms : String
deriving DecidableEq, Repr

/-- The synthetic parent entry `get_hpc_files` prepends when the current
directory is not the filesystem root. -/
def dotdotEntry : DirEntry :=
  { name := "..", type := .Directory, size := "", owner := "", perms := "drwxr-xr-x" }

/-- Parse one `ls -l` row exactly as the loop body of `get_hpc_files` does:
whitespace-split, require at least 9 fields, re-join fields 8.. as the name,
drop names starting with a dot, and classify by the first character of the
permission string. -/
def parseLsLine (line : String) : Option DirEntry :=
  let parts := pySplitWs line
  if parts.length ≥ 9 then
    let name := strIntercalate " " (parts.drop 8)
    if strStartsWith name "." then none
    else some { name := name,
                type := if strStartsWith (parts.headD "") "d" then .Directory else .File,
                size := parts.getD 4 "",
                owner := parts.getD 2 "",
                perms := parts.headD "" }
  else none

/-- `get_hpc_files` (app.py 1755-1800) on the raw `ls -l` output lines:
the remote pipe through `awk` drops the first summary line (`NR>1`), a
synthetic `".."` entry is prepended when `currentDir ≠ "/"`, and each
remaining row goes through `parseLsLine`. -/
def get_hpc_files (currentDir : String) (lsOutputLines : List String) : List DirEntry :=
  (if currentDir ≠ "/" then [dotdotEntry] else [])
    ++ (lsOutputLines.drop 1).filterMap parseLsLine

/-! ### File editor load path (`handle_file_content`, app.py 2083-2124) -/

/-- `MAX_DISPLAY_SIZE` from `handle_file_content`. -/
def MAX_DISPLAY_SIZE : Nat := 5000000

/-- `MAX_LINES` from `handle_file_content`. -/
def MAX_LINES : Nat := 50000

/-- `TRUNCATE_MESSAGE` from `handle_file_content`. -/
def TRUNCATE_MESSAGE : String := "\n\n[TRUNCATED - FILE TOO LARGE TO DISPLAY FULLY]"

/-- `head -n k`: the prefix of the byte stream up to and including the k-th
newline (or the whole stream when it has fewer lines). -/
def headLines : Nat → List Char → List Char
  | 0, _ => []
  | _ + 1, [] => []
  | n + 1, c :: cs =>
    if c = '\n' then '\n' :: headLines n cs else c :: headLines (n + 1) cs

/-- The editor buffer: the loaded text and whether the truncation marker was
appended (the spec's `truncated` flag). A remote file is modelled as its byte
stream, one `Char` per byte (the code decodes with `errors="replace"`; the
model identifies bytes with characters, which is exact for ASCII content). -/
structure EditorBuffer where
  content : List Char
  truncated : Bool
deriving DecidableEq, Repr

/-- `stat -c%s`: the byte size of the remote file. -/
def fileSize (file : List Char) : Nat := file.length

/-- `handle_file_content` (app.py 2083-2124): stat the size; above
`MAX_DISPLAY_SIZE` read `head -n MAX_LINES | head -c MAX_DISPLAY_SIZE` and
append `TRUNCATE_MESSAGE` only when that capped content still reaches
`MAX_DISPLAY_SIZE` characters; otherwise `cat` the whole file. -/
def handle_file_content (file : List Char) : EditorBuffer :=
  if MAX_DISPLAY_SIZE < fileSize file then
    let content := (headLines MAX_LINES file).take MAX_DISPLAY_SIZE
    if MAX_DISPLAY_SIZE ≤ content.length then
      { content := content.take MAX_DISPLAY_SIZE ++ TRUNCATE_MESSAGE.data, truncated := true }
    else { content := content, truncated := false }
  else { content := file, truncated := false }

/-! ### Session state and the reactive handlers over it

The server keeps its mutable state in `reactive.Value` cells; a `set` to a
changed value re-runs the effects that depend on the cell
(`reset_selection` on `current_dir`, `update_slurm_queue` on
`hpc_connected`). The state record collects the cells the claims touch and
each handler is a function from state to state, with the dependent effects
inlined at each `set` whose value changes. -/

/-- A `ui.notification_show` call: message text and type. -/
structure Notice where
  msg : String
  kind : String
deriving DecidableEq, Repr

/-- The reactive cells of the HPC session the claims are about. -/
structure HpcState where
  client : Bool
  connected : Bool
  currentDir : String
  selected : Option DirEntry
  editorVisible : Bool
  fileContent : String
  availableModules : List String
  selectedModules : List String
  jobQueue : List (List String)
  refreshTrigger : Nat
deriving DecidableEq, Repr

/-- `current_dir.set(v)` together with the `reset_selection` effect
(app.py 1942-1962) that a changed value triggers: clear the selection,
hide the editor, clear the buffer. -/
def setCurrentDir (st : HpcState) (v : String) : HpcState :=
  if v = st.currentDir then st
  else { st with currentDir := v, selected := none,
                 editorVisible := false, fileContent := "" }

/-- `disconnect_hpc` (app.py 1736-1753). With a live client the `finally`
block clears the client, sets `connected := false`, resets the directory to
`"~"` and bumps the refresh trigger; the `hpc_connected` change runs
`update_slurm_queue` (app.py 2245-2256), which clears the queue snapshot,
and the `current_dir` change runs `reset_selection`. With no client it only
reports "Not connected to HPC". -/
def disconnect_hpc (st : HpcState) : HpcState × Notice :=
  if st.client then
    let st1 : HpcState := { st with client := false }
    let st2 : HpcState :=
      if st1.connected then { st1 with connected := false, jobQueue := [] } else st1
    let st3 : HpcState := setCurrentDir st2 "~"
    ({ st3 with refreshTrigger := st3.refreshTrigger + 1 },
      { msg := "Disconnected from HPC", kind := "message" })
  else (st, { msg := "Not connected to HPC", kind := "warning" })

/-! ### Remote command builders (the strings handed to `exec_command`) -/

/-- `full_cmd` of `execute_command` (app.py 1847): the console text is
interpolated between bare single quotes. -/
def buildConsoleCmd (currentDir cmd : String) : String :=
  "cd " ++ currentDir ++ " && bash -l -c '" ++ cmd ++ "'"

/-- The existence check of `handle_open_action` (app.py 2068): the resolved
path is interpolated between double quotes. -/
def buildDirCheckCmd (newPath : String) : String :=
  "[ -d \"" ++ newPath ++ "\" ]"

/-- The `rm` command of `delete_selected_item` (app.py 2176-2180): the
joined path is interpolated between bare single quotes, `rm -rf` for a
directory and `rm` for a file. -/
def deleteCmd (currentDir : String) (item : DirEntry) : String :=
  let fullPath := pyJoin currentDir item.name
  if item.type = .Directory then "rm -rf '" ++ fullPath ++ "'"
  else "rm '" ++ fullPath ++ "'"

/-! ### Navigation and deletion handlers -/

/-- The target `handle_open_action` resolves for a directory entry
(app.py 2057-2065): `normpath(join(current.rstrip('/'), name))`, or the
dirname of the stripped current directory for `".."`. -/
def navTarget (currentDir name : String) : String :=
  let currentPath := rstripSlash currentDir
  pyNormpath (if name ≠ ".." then pyJoin currentPath name else pyDirname currentPath)

/-- `handle_open_action` (app.py 2046-2081). `dirExists` is the remote
`[ -d "…" ]` probe (true exactly when the exit status is 0); `remoteFile`
is the byte stream `handle_file_content` reads in the file branch. On a
directory entry the current directory is set (with its reactive cascade)
only when the probe succeeds, else an "Invalid directory" warning is shown
and nothing changes. On a file entry the buffer is loaded and the editor
modal shown; the directory is untouched. -/
def handle_open_action (st : HpcState) (dirExists : String → Bool)
    (remoteFile : List Char) : HpcState × Option Notice :=
  match st.selected with
  | none => (st, none)
  | some item =>
    if item.type = .Directory then
      let newPath := navTarget st.currentDir item.name
      if dirExists newPath then
        let st1 := setCurrentDir st newPath
        ({ st1 with refreshTrigger := st1.refreshTrigger + 1 }, none)
      else (st, some { msg := "Invalid directory: " ++ newPath, kind := "warning" })
    else
      ({ st with fileContent := String.mk (handle_file_content remoteFile).content,
                 editorVisible := true }, none)

/-- `delete_selected_item` (app.py 2168-2194). `exec` yields the exit
status and stderr of the remote `rm`; on exit 0 the refresh trigger is
bumped and the selection cleared, otherwise the state is unchanged and the
error reported. -/
def delete_selected_item (st : HpcState) (exec : String → Nat × String) :
    HpcState × Option Notice :=
  match st.selected with
  | none => (st, none)
  | some item =>
    let r := exec (deleteCmd st.currentDir item)
    if r.1 = 0 then
      ({ st with refreshTrigger := st.refreshTrigger + 1, selected := none },
        some { msg := "Deleted " ++ item.name, kind := "message" })
    else (st, some { msg := "Deletion failed: " ++ r.2, kind := "error" })

/-! ### A small model of POSIX shell command-line structure

Enough of `sh` lexing to state claim C1: track single- and double-quote
state left to right; a `;` outside both quotes separates commands, and a
`$(` outside single quotes starts a command substitution. The command
strings the app builds use only these quoting constructs. -/

/-- Push a character onto the first (current) piece of a split. -/
def consHead (c : Char) : List (List Char) → List (List Char)
  | [] => [[c]]
  | h :: t => (c :: h) :: t

/-- Split a command line at every `;` that stands outside single and double
quotes, tracking the two quote states. -/
def splitCmdsAux : Bool → Bool → List Char → List (List Char)
  | _, _, [] => [[]]
  | inS, inD, c :: cs =>
    if inS then consHead c (splitCmdsAux (c ≠ '\'') inD cs)
    else if inD then consHead c (splitCmdsAux false (c ≠ '"') cs)
    else if c = ';' then [] :: splitCmdsAux false false cs
    else if c = '\'' then consHead c (splitCmdsAux true false cs)
    else if c = '"' then consHead c (splitCmdsAux false true cs)
    else consHead c (splitCmdsAux false false cs)

/-- The command list the shell reads a line as: pieces between top-level
`;` separators. A string wrapped as one quoted literal argument yields
exactly one command. -/
def shellSplitCommands (s : String) : List String :=
  (splitCmdsAux false false s.data).map String.mk

/-- Whether the line contains a `$(` that the shell would expand: one
standing outside single quotes (double quotes do not stop command
substitution). -/
def hasDollarParenAux : Bool → Bool → List Char → Bool
  | _, _, [] => false
  | inS, inD, c :: cs =>
    if inS then hasDollarParenAux (c ≠ '\'') inD cs
    else if c = '$' then
      match cs with
      | '(' :: _ => true
      | _ => hasDollarParenAux false inD cs
    else if inD then hasDollarParenAux false (c ≠ '"') cs
    else if c = '\'' then hasDollarParenAux true inD cs
    else if c = '"' then hasDollarParenAux false true cs
    else hasDollarParenAux false inD cs

/-- `hasDollarParenAux` from the initial unquoted state. -/
def hasUnquotedDollarParen (s : String) : Bool :=
  hasDollarParenAux false false s.data

/-- The vetted POSIX escaper the spec calls for, exactly as `shlex.quote`
builds it: wrap in single quotes after rewriting every embedded single
quote to the five characters of the close–double-quote–reopen idiom. The
app never calls such a function; it is defined here to state what escaping
would give. -/
def shQuote (s : String) : String :=
  "'" ++ String.mk (s.data.flatMap fun c =>
    if c = '\'' then '\'' :: '"' :: '\'' :: '"' :: ['\''] else [c]) ++ "'"

/-! ### Job builder: partition discovery (`get_hpc_partitions`, app.py 2712-2755) -/

/-- Insertion sort by Python's string `<=`: the effect of `sorted` on a
list of partition names. -/
def sortedStrings (l : List String) : List String :=
  List.insertionSort (fun a b => strLe a b = true) l

/-- The fold body of `get_hpc_partitions`: split a row on commas, strip each
piece, skip empties, drop every `*` (recording the first starred name as the
default when none is set yet), and append. -/
def partitionStep (acc : List String × String) (line : String) : List String × String :=
  ((splitOnChar ',' line.data).map String.mk).foldl (fun acc part =>
    let cleanPart := stripStr part
    if cleanPart ≠ "" then
      if cleanPart.data.contains '*' then
        let cp := String.mk (cleanPart.data.filter (· ≠ '*'))
        (acc.1 ++ [cp], if acc.2 = "" then cp else acc.2)
      else (acc.1 ++ [cleanPart], acc.2)
    else acc) acc

/-- `get_hpc_partitions` (app.py 2712-2755) on the stripped `sinfo` output:
on empty output `([], "")`; otherwise split into lines, skip the header
line, fold `partitionStep` over the rest, deduplicate and sort
(`sorted(list(set(…)))`), and fall back to the first partition when no
starred default was seen. -/
def get_hpc_partitions (rawOutput : String) : List String × String :=
  let raw := stripStr rawOutput
  if raw = "" then ([], "") else
  let lines := (splitOnChar '\n' raw.data).map String.mk
  let pd := (lines.drop 1).foldl partitionStep ([], "")
  let partitions := sortedStrings pd.1.dedup
  let dflt := if pd.2 = "" ∧ partitions ≠ [] then partitions.headD "" else pd.2
  (partitions, dflt)

/-! ### Job builder: module selection (app.py 2538-2550) -/

/-- `add_selected_module` (app.py 2538-2543): append the chosen module when
it is non-empty (Python truthiness) and not already selected. -/
def add_selected_module (sel : List String) (m : String) : List String :=
  if m ≠ "" ∧ m ∉ sel then sel ++ [m] else sel

/-- The `module_to_remove` handler (app.py 2545-2550): filter the module
out when it is non-empty and currently selected. -/
def remove_module (sel : List String) (m : String) : List String :=
  if m ≠ "" ∧ m ∈ sel then sel.filter (· ≠ m) else sel

/-- One user interaction with the module selector. -/
inductive ModOp where
  | add (m : String)
  | remove (m : String)

/-- Apply one selector interaction to the selection. -/
def applyModOp (sel : List String) : ModOp → List String
  | .add m => add_selected_module sel m
  | .remove m => remove_module sel m

/-- A whole interaction history applied to the initially empty selection. -/
def applyModOps (ops : List ModOp) : List String :=
  ops.foldl applyModOp []

/-! ### Credential check (`verify_user`, src/auth/auth_db.py 50-75) -/

/-- One row of the `users` table as `create_user`/`init_db` write it: the
stored `password_hash` column is `salt ++ "$" ++ hashed` with both halves
hex strings, so `stored_hash.split('$')` recovers exactly this pair; the
row is modelled post-split. -/
structure UserRow where
  id : Nat
  username : String
  salt : String
  hashed : String
deriving DecidableEq, Repr

/-- `SELECT id, password_hash FROM users WHERE username = ?` with
`fetchone()`: the first row whose username matches. -/
def fetchUser (db : List UserRow) (username : String) : Option UserRow :=
  db.find? (fun r => r.username = username)

/-- `verify_user` (auth_db.py 50-75). `H password salt` stands for
`hashlib.pbkdf2_hmac('sha256', password, salt, 100000).hex()`; the
`secrets.compare_digest` call decides string equality (in constant time).
The function only reads the store: it is a pure query of `db`. -/
def verify_user (H : String → String → String) (db : List UserRow)
    (username password : String) : Option Nat :=
  match fetchUser db username with
  | none => none
  | some row => if H password row.salt = row.hashed then some row.id else none

/-! ### Concrete instances used by counterexamples and witnesses -/

/-- A connected session state: live client, home directory as the cursor,
one discovered module, one queued job. -/
def c2State : HpcState :=
  { client := true, connected := true, currentDir := "/home/user",
    selected := none, editorVisible := false, fileContent := "",
    availableModules := ["gcc/12.2"], selectedModules := [],
    jobQueue := [["12345", "job", "R", "1:00"]], refreshTrigger := 0 }

/-- An already-disconnected session state. -/
def discState : HpcState :=
  { client := false, connected := false, currentDir := "~",
    selected := none, editorVisible := false, fileContent := "",
    availableModules := [], selectedModules := [], jobQueue := [],
    refreshTrigger := 3 }

/-- A subdirectory entry of the listing. -/
def subdirItem : DirEntry :=
  { name := "proj", type := .Directory, size := "4096", owner := "user",
    perms := "drwxr-xr-x" }

/-- The connected state with the subdirectory entry selected. -/
def navState : HpcState :=
  { c2State with selected := some subdirItem }

/-- A remote file of 5,000,001 one-character lines: 10,000,002 bytes, far
above `MAX_DISPLAY_SIZE`, yet its first 50,000 lines hold only 100,000
bytes. -/
def manyLineFile : List Char := (List.replicate 5000001 ['a', '\n']).flatten

/-- A stand-in for `pbkdf2_hmac('sha256', ·, ·, 100000).hex()` over a
one-user store, for instantiating the credential theorem. -/
def c10Hash (p s : String) : String := "pbkdf2-" ++ p ++ "-" ++ s

/-- A one-row credential store whose stored hash matches password "pw". -/
def c10Db : List UserRow :=
  [{ id := 1, username := "admin", salt := "s1", hashed := "pbkdf2-pw-s1" }]

/-! ### Helper lemmas -/

/-- A row parsed by `parseLsLine` never has a name starting with a dot. -/
theorem parseLsLine_name_not_dot {line : String} {e : DirEntry}
    (h : parseLsLine line = some e) : strStartsWith e.name "." = false := by
  simp only [parseLsLine] at h
  split at h
  · split at h
    · exact absurd h (by simp)
    · next hne =>
      obtain rfl : _ = e := Option.some.injEq _ _ ▸ h
      simpa using hne
  · exact absurd h (by simp)

/-- A cons-level unfolding of the lexicographic comparison. -/
theorem charListLe_cons_iff {x y : Char} {xs ys : List Char} :
    charListLe (x :: xs) (y :: ys) = true ↔
      x.toNat < y.toNat ∨ (x.toNat = y.toNat ∧ charListLe xs ys = true) := by
  by_cases h1 : x.toNat < y.toNat
  · simp [charListLe, h1]
  · by_cases h2 : y.toNat < x.toNat
    · simp [charListLe, h1, h2]
      omega
    · have he : x.toNat = y.toNat := by omega
      simp [charListLe, h1, h2, he]

/-- Totality of the comparison: one direction always holds. -/
theorem charListLe_total : ∀ a b : List Char, charListLe a b = true ∨ charListLe b a = true := by
  intro a
  induction a with
  | nil => intro b; left; rfl
  | cons x xs ih =>
    intro b
    cases b with
    | nil => right; rfl
    | cons y ys =>
      by_cases h1 : x.toNat < y.toNat
      · left; exact charListLe_cons_iff.mpr (Or.inl h1)
      · by_cases h2 : y.toNat < x.toNat
        · right; exact charListLe_cons_iff.mpr (Or.inl h2)
        · have he : x.toNat = y.toNat := by omega
          rcases ih ys with h | h
          · left; exact charListLe_cons_iff.mpr (Or.inr ⟨he, h⟩)
          · right; exact charListLe_cons_iff.mpr (Or.inr ⟨he.symm, h⟩)

/-- Transitivity of the comparison. -/
theorem charListLe_trans : ∀ a b c : List Char,
    charListLe a b = true → charListLe b c = true → charListLe a c = true := by
  intro a
  induction a with
  | nil => intro b c _ _; rfl
  | cons x xs ih =>
    intro b c hab hbc
    cases b with
    | nil => simp [charListLe] at hab
    | cons y ys =>
      cases c with
      | nil => simp [charListLe] at hbc
      | cons z zs =>
        rcases charListLe_cons_iff.mp hab with h1 | ⟨h1, h1'⟩ <;>
          rcases charListLe_cons_iff.mp hbc with h2 | ⟨h2, h2'⟩
        · exact charListLe_cons_iff.mpr (Or.inl (by omega))
        · exact charListLe_cons_iff.mpr (Or.inl (by omega))
        · exact charListLe_cons_iff.mpr (Or.inl (by omega))
        · exact charListLe_cons_iff.mpr (Or.inr ⟨by omega, ih ys zs h1' h2'⟩)

instance : IsTotal String fun a b => strLe a b = true :=
  ⟨fun a b => charListLe_total a.data b.data⟩

instance : IsTrans String fun a b => strLe a b = true :=
  ⟨fun a b c => charListLe_trans a.data b.data c.data⟩

/-- Length of the flattened replicated two-character block. -/
theorem length_flatten_replicate_pair (n : Nat) :
    ((List.replicate n ['a', '\n']).flatten).length = 2 * n := by
  induction n with
  | zero => rfl
  | succ n ih =>
    rw [List.replicate_succ, List.flatten_cons, List.length_append, ih]
    simp only [List.length_cons, List.length_nil]
    omega

/-- `head -n k` on a file of at least `k` one-character lines returns
exactly the first `k` lines. -/
theorem headLines_flatten_replicate_pair (k : Nat) : ∀ n : Nat, k ≤ n →
    headLines k ((List.replicate n ['a', '\n']).flatten) =
      (List.replicate k ['a', '\n']).flatten := by
  induction k with
  | zero => intro n _; simp [headLines]
  | succ k ih =>
    intro n hn
    cases n with
    | zero => omega
    | succ n =>
      simp only [List.replicate_succ, List.flatten_cons, List.cons_append, List.nil_append]
      rw [headLines, if_neg (by decide : ¬ ('a' : Char) = '\n'), headLines, if_pos rfl,
        ih n (by omega)]

/-! ### Claim theorems -/

/-- C4: in every listing the synthetic `".."` entry is present exactly when
the current directory is not `"/"`, and when present it is the first entry
of the sequence. -/
theorem listing_dotdot_iff_nonroot (cur : String) (lines : List String) :
    ((∃ e ∈ get_hpc_files cur lines, e.name = "..") ↔ cur ≠ "/")
    ∧ (cur ≠ "/" → (get_hpc_files cur lines).head? = some dotdotEntry) := by
  constructor
  · constructor
    · rintro ⟨e, he, hname⟩ hroot
      rw [get_hpc_files, if_neg (by simp [hroot]), List.nil_append] at he
      obtain ⟨line, -, hp⟩ := List.mem_filterMap.mp he
      have hnd := parseLsLine_name_not_dot hp
      rw [hname] at hnd
      exact absurd hnd (by decide)
    · intro h
      exact ⟨dotdotEntry, by simp [get_hpc_files, if_pos h], rfl⟩
  · intro h
    simp [get_hpc_files, if_pos h]

/-- C4 witness: at the concrete directory `"/home/u"` with a one-line
listing, the `".."` entry is first. -/
theorem listing_dotdot_iff_nonroot_witness :
    (get_hpc_files "/home/u" ["total 0"]).head? = some dotdotEntry :=
  (listing_dotdot_iff_nonroot "/home/u" ["total 0"]).2 (by decide)

/-- C5: every parsed row whose name starts with `"."` is excluded from the
listing, so the only returned entry that can begin with a dot is the
synthetic `".."` one. -/
theorem listing_excludes_dotfiles (cur : String) (lines : List String) :
    (∀ e ∈ (lines.drop 1).filterMap parseLsLine, strStartsWith e.name "." = false)
    ∧ ∀ e ∈ get_hpc_files cur lines, strStartsWith e.name "." = true → e = dotdotEntry := by
  constructor
  · intro e he
    obtain ⟨line, -, hp⟩ := List.mem_filterMap.mp he
    exact parseLsLine_name_not_dot hp
  · intro e he hdot
    rw [get_hpc_files] at he
    rcases List.mem_append.mp he with h | h
    · split at h
      · simpa using h
      · simp at h
    · obtain ⟨line, -, hp⟩ := List.mem_filterMap.mp h
      rw [parseLsLine_name_not_dot hp] at hdot
      exact absurd hdot (by decide)

/-- C5 witness: the parsed visible row of a concrete listing does not start
with a dot (the `.hidden` row of the same listing is dropped). -/
theorem listing_excludes_dotfiles_witness :
    strStartsWith
      ({ name := "notes.txt", type := .File, size := "10", owner := "u",
         perms := "-rw-r--r--" } : DirEntry).name "." = false :=
  (listing_excludes_dotfiles "/home/u"
      ["total 8", "-rw-r--r-- 1 u g 10 Jan 1 00:00 .hidden",
       "-rw-r--r-- 1 u g 10 Jan 1 00:00 notes.txt"]).1
    _ (by decide)

/-- C8: partition parsing on the spec's example input skips the header row,
splits the comma-joined row, strips the `*` marker, deduplicates and sorts,
returning the partitions `{batch, debug, gpu}` with `debug` (the first
starred entry) as default; and for every raw output the returned partition
list is sorted and duplicate-free. -/
theorem partitions_parse_example :
    get_hpc_partitions "partition\ndebug*,batch\ngpu" = (["batch", "debug", "gpu"], "debug")
    ∧ ∀ raw, ((get_hpc_partitions raw).1).Sorted (fun a b => strLe a b = true)
        ∧ ((get_hpc_partitions raw).1).Nodup := by
  constructor
  · decide
  · intro raw
    rw [get_hpc_partitions]
    split
    · exact ⟨List.sorted_nil, List.nodup_nil⟩
    · refine ⟨List.sorted_insertionSort _ _, ?_⟩
      exact ((List.perm_insertionSort _ _).nodup_iff).mpr (List.nodup_dedup _)

/-- C1: evaluation of the command builders at concrete hostile inputs. The
claim's own example is safe (deleting `a; rm -rf /` is one `rm`, third
conjunct), but the builders do not escape: deleting an entry whose name
contains a single quote yields three shell commands, among them `rm -rf ~`
(first conjunct), while the vetted escaper would keep it one command
(second conjunct); a console command containing a quoted `;` splits in two
(fourth conjunct); and the directory-existence probe leaves `$(…)` inside
double quotes, where the shell substitutes it, unlike the escaped form
(fifth and sixth conjuncts). -/
theorem shell_commands_unescaped_eval :
    shellSplitCommands (deleteCmd "/home/user"
        { name := "a'; rm -rf ~; '", type := .File, size := "", owner := "", perms := "" })
      = ["rm '/home/user/a'", " rm -rf ~", " ''"]
    ∧ shellSplitCommands ("rm " ++ shQuote (pyJoin "/home/user" "a'; rm -rf ~; '"))
      = ["rm '/home/user/a'\"'\"'; rm -rf ~; '\"'\"''"]
    ∧ shellSplitCommands (deleteCmd "/home/user"
        { name := "a; rm -rf /", type := .File, size := "", owner := "", perms := "" })
      = ["rm '/home/user/a; rm -rf /'"]
    ∧ shellSplitCommands (buildConsoleCmd "/home/user" "echo 'a;b'")
      = ["cd /home/user && bash -l -c 'echo 'a", "b''"]
    ∧ hasUnquotedDollarParen (buildDirCheckCmd (navTarget "/home/user" "$(touch pwned)"))
      = true
    ∧ hasUnquotedDollarParen ("[ -d " ++ shQuote (navTarget "/home/user" "$(touch pwned)") ++ " ]")
      = false := by
  refine ⟨by decide, by decide, by decide, by decide, by decide, by decide⟩

/-- C9: module selection laws — adding a present module and removing an
absent one are no-ops, both operations preserve the relative order of the
remaining modules (sublist relations), and any interaction history starting
from the empty selection keeps it duplicate-free. -/
theorem module_selection_laws :
    (∀ sel m, m ∈ sel → add_selected_module sel m = sel)
    ∧ (∀ sel m, m ∉ sel → remove_module sel m = sel)
    ∧ (∀ sel m, List.Sublist sel (add_selected_module sel m))
    ∧ (∀ sel m, List.Sublist (remove_module sel m) sel)
    ∧ (∀ ops, (applyModOps ops).Nodup) := by
  refine ⟨?_, ?_, ?_, ?_, ?_⟩
  · intro sel m hm
    rw [add_selected_module, if_neg]
    rintro ⟨-, hnot⟩
    exact hnot hm
  · intro sel m hm
    rw [remove_module, if_neg]
    rintro ⟨-, hmem⟩
    exact hm hmem
  · intro sel m
    rw [add_selected_module]
    split
    · exact List.sublist_append_left sel [m]
    · exact List.Sublist.refl sel
  · intro sel m
    rw [remove_module]
    split
    · exact List.filter_sublist sel
    · exact List.Sublist.refl sel
  · intro ops
    rw [applyModOps]
    have step : ∀ (ops : List ModOp) (sel : List String),
        sel.Nodup → (ops.foldl applyModOp sel).Nodup := by
      intro ops
      induction ops with
      | nil => intro sel h; exact h
      | cons op ops ih =>
        intro sel h
        refine ih _ ?_
        cases op with
        | add m =>
          show (add_selected_module sel m).Nodup
          rw [add_selected_module]
          split
          · next hc =>
            rw [List.nodup_append]
            exact ⟨h, List.nodup_singleton m, by simpa using hc.2⟩
          · exact h
        | remove m =>
          show (remove_module sel m).Nodup
          rw [remove_module]
          split
          · exact h.filter _
          · exact h
    exact step ops [] List.nodup_nil

/-- C9 witness: adding the already-selected `gcc/12.2` and removing the
never-selected `intel` both leave the selection unchanged. -/
theorem module_selection_laws_witness :
    add_selected_module ["gcc/12.2"] "gcc/12.2" = ["gcc/12.2"]
    ∧ remove_module ["gcc/12.2"] "intel" = ["gcc/12.2"] :=
  ⟨module_selection_laws.1 ["gcc/12.2"] "gcc/12.2" (by decide),
   module_selection_laws.2.1 ["gcc/12.2"] "intel" (by decide)⟩

/-- C2 counterexample: disconnecting from a live connected session leaves
the module catalog exactly as it was — the non-empty stale list survives,
so the claim that disconnect invalidates the module catalog fails. -/
theorem disconnect_keeps_module_catalog :
    c2State.availableModules = ["gcc/12.2"]
    ∧ (disconnect_hpc c2State).1.availableModules = ["gcc/12.2"] := by
  refine ⟨rfl, by decide⟩

/-- C2 amended: disconnecting a session with a live client and a
non-home-reset cursor sets `connected := false`, resets the directory to
`"~"`, clears the selection, the editor and the job-queue snapshot, and
reports the disconnect — but leaves the module catalog untouched; calling
it with no client changes nothing and reports "Not connected to HPC". -/
theorem disconnect_behaviour (st : HpcState) :
    (st.client = true → st.connected = true → st.currentDir ≠ "~" →
      (disconnect_hpc st).1.client = false
      ∧ (disconnect_hpc st).1.connected = false
      ∧ (disconnect_hpc st).1.currentDir = "~"
      ∧ (disconnect_hpc st).1.selected = none
      ∧ (disconnect_hpc st).1.editorVisible = false
      ∧ (disconnect_hpc st).1.jobQueue = []
      ∧ (disconnect_hpc st).1.availableModules = st.availableModules
      ∧ (disconnect_hpc st).2 = { msg := "Disconnected from HPC", kind := "message" })
    ∧ (st.client = false →
        disconnect_hpc st = (st, { msg := "Not connected to HPC", kind := "warning" })) := by
  constructor
  · intro hc hcon hdir
    simp [disconnect_hpc, setCurrentDir, hc, hcon, Ne.symm hdir]
  · intro hc
    rw [disconnect_hpc, if_neg (by simp [hc])]

/-- C2 witness: the amended behaviour at the concrete connected state and
at the concrete already-disconnected state. -/
theorem disconnect_behaviour_witness :
    (disconnect_hpc c2State).1.currentDir = "~"
    ∧ (disconnect_hpc c2State).1.jobQueue = []
    ∧ disconnect_hpc discState
        = (discState, { msg := "Not connected to HPC", kind := "warning" }) :=
  ⟨((disconnect_behaviour c2State).1 rfl rfl (by decide)).2.2.1,
   ((disconnect_behaviour c2State).1 rfl rfl (by decide)).2.2.2.2.2.1,
   (disconnect_behaviour discState).2 rfl⟩

/-- C6: opening a selected directory entry whose resolved target fails the
remote existence probe leaves `currentDir` unchanged and surfaces the
"Invalid directory" warning; conversely the cursor moves only when the
probe succeeded. -/
theorem open_dir_guard (st : HpcState) (dirExists : String → Bool)
    (remoteFile : List Char) (item : DirEntry)
    (hsel : st.selected = some item) (hdir : item.type = .Directory) :
    (dirExists (navTarget st.currentDir item.name) = false →
      (handle_open_action st dirExists remoteFile).1.currentDir = st.currentDir
      ∧ (handle_open_action st dirExists remoteFile).2 =
          some { msg := "Invalid directory: " ++ navTarget st.currentDir item.name,
                 kind := "warning" })
    ∧ ((handle_open_action st dirExists remoteFile).1.currentDir ≠ st.currentDir →
        dirExists (navTarget st.currentDir item.name) = true) := by
  rw [handle_open_action, hsel]
  simp only [if_pos hdir]
  constructor
  · intro hfail
    rw [hfail]
    exact ⟨rfl, rfl⟩
  · intro hchanged
    cases hde : dirExists (navTarget st.currentDir item.name) with
    | false => rw [hde] at hchanged; simp at hchanged
    | true => rfl

/-- C6 witness: at the concrete selected subdirectory with an
always-failing probe, the cursor stays at `/home/user` and the warning
names the resolved target. -/
theorem open_dir_guard_witness :
    (handle_open_action navState (fun _ => false) []).1.currentDir = navState.currentDir
    ∧ (handle_open_action navState (fun _ => false) []).2 =
        some { msg := "Invalid directory: " ++ navTarget navState.currentDir subdirItem.name,
               kind := "warning" } :=
  (open_dir_guard navState (fun _ => false) [] subdirItem rfl rfl).1 rfl

/-- C7: after a successful navigation that moves the cursor the selection
is cleared in the same state transition, and after a successful delete the
selection is cleared as well. -/
theorem nav_delete_clear_selection (st : HpcState) (dirExists : String → Bool)
    (remoteFile : List Char) (exec : String → Nat × String) (item : DirEntry) :
    (st.selected = some item → item.type = .Directory →
      dirExists (navTarget st.currentDir item.name) = true →
      navTarget st.currentDir item.name ≠ st.currentDir →
      (handle_open_action st dirExists remoteFile).1.selected = none)
    ∧ (st.selected = some item → (exec (deleteCmd st.currentDir item)).1 = 0 →
        (delete_selected_item st exec).1.selected = none) := by
  constructor
  · intro hsel hdir hok hmove
    simp [handle_open_action, hsel, hdir, hok, setCurrentDir, hmove]
  · intro hsel hexit
    simp [delete_selected_item, hsel, hexit]

/-- C3 counterexample: a 10,000,002-byte file of 5,000,001 one-character
lines is far above the display threshold, yet its load yields no truncation
marker (`truncated = false`), because its first 50,000 lines hold only
100,000 bytes and the marker is appended only when the capped content
reaches the threshold. -/
theorem load_large_manyline_file_unmarked :
    MAX_DISPLAY_SIZE < fileSize manyLineFile
    ∧ (handle_file_content manyLineFile).truncated = false := by
  have hsize : fileSize manyLineFile = 10000002 := by
    rw [fileSize, manyLineFile, length_flatten_replicate_pair]
  have hhead : headLines MAX_LINES manyLineFile
      = (List.replicate 50000 ['a', '\n']).flatten :=
    headLines_flatten_replicate_pair 50000 5000001 (by norm_num)
  have hlen : (headLines MAX_LINES manyLineFile).length = 100000 := by
    rw [hhead, length_flatten_replicate_pair]
  have hbig : MAX_DISPLAY_SIZE < fileSize manyLineFile := by
    rw [hsize]; norm_num [MAX_DISPLAY_SIZE]
  refine ⟨hbig, ?_⟩
  have hcond : ¬ MAX_DISPLAY_SIZE ≤
      ((headLines MAX_LINES manyLineFile).take MAX_DISPLAY_SIZE).length := by
    rw [List.length_take, hlen]
    norm_num [MAX_DISPLAY_SIZE]
  simp only [handle_file_content]
  rw [if_pos hbig, if_neg hcond]

/-- C3 amended: a file at or below the threshold loads exactly with no
marker; above the threshold the content is the first `MAX_LINES` lines
capped at `MAX_DISPLAY_SIZE` bytes, the total length stays within threshold
plus marker, and the truncation marker — i.e. `truncated = true` — appears
exactly when that capped content reaches the byte threshold. -/
theorem handle_file_content_spec (file : List Char) :
    (fileSize file ≤ MAX_DISPLAY_SIZE → handle_file_content file = ⟨file, false⟩)
    ∧ (MAX_DISPLAY_SIZE < fileSize file →
        (handle_file_content file).content.length
            ≤ MAX_DISPLAY_SIZE + TRUNCATE_MESSAGE.data.length
        ∧ ((handle_file_content file).truncated = true ↔
            MAX_DISPLAY_SIZE ≤ ((headLines MAX_LINES file).take MAX_DISPLAY_SIZE).length)
        ∧ ((handle_file_content file).truncated = true →
            (handle_file_content file).content
              = (headLines MAX_LINES file).take MAX_DISPLAY_SIZE ++ TRUNCATE_MESSAGE.data)
        ∧ ((handle_file_content file).truncated = false →
            (handle_file_content file).content
              = (headLines MAX_LINES file).take MAX_DISPLAY_SIZE)) := by
  constructor
  · intro h
    rw [handle_file_content, if_neg (by omega)]
  · intro h
    simp only [handle_file_content]
    rw [if_pos h]
    by_cases hc : MAX_DISPLAY_SIZE ≤ ((headLines MAX_LINES file).take MAX_DISPLAY_SIZE).length
    · rw [if_pos hc]
      refine ⟨?_, by simpa using hc, ?_, by simp⟩
      · rw [List.length_append, List.take_take, Nat.min_self, List.length_take]
        omega
      · intro _
        show List.take MAX_DISPLAY_SIZE _ ++ _ = _
        rw [List.take_take, Nat.min_self]
    · rw [if_neg hc]
      refine ⟨?_, by simpa using hc, by simp, fun _ => rfl⟩
      rw [List.length_take]
      omega

/-- C3 witness: a two-byte file loads exactly with no marker. -/
theorem handle_file_content_spec_witness :
    handle_file_content "hi".data = ⟨"hi".data, false⟩ :=
  (handle_file_content_spec "hi".data).1 (by decide)

/-- With pairwise-distinct usernames, `fetchUser` returns exactly the
matching row. -/
theorem find?_username_first {u : String} {row : UserRow} :
    ∀ {db : List UserRow}, (db.map (fun r => r.username)).Nodup → row ∈ db →
      row.username = u → fetchUser db u = some row := by
  intro db
  induction db with
  | nil => intro _ h; cases h
  | cons a l ih =>
    intro hn hmem hu
    rw [List.map_cons, List.nodup_cons] at hn
    rcases List.mem_cons.mp hmem with rfl | hmem2
    · rw [fetchUser, List.find?_cons_of_pos _ (by simp [hu])]
    · have hne : a.username ≠ u := by
        intro he
        apply hn.1
        rw [he, ← hu]
        exact List.mem_map_of_mem (fun r => r.username) hmem2
      rw [fetchUser, List.find?_cons_of_neg _ (by simp [hne])]
      exact ih hn.2 hmem2 hu

/-- Unfolding of `verify_user` when no row matches. -/
theorem verify_user_none (H : String → String → String) (db : List UserRow)
    (u p : String) (hf : fetchUser db u = none) : verify_user H db u p = none := by
  rw [verify_user, hf]

/-- Unfolding of `verify_user` at the fetched row. -/
theorem verify_user_some (H : String → String → String) (db : List UserRow)
    (u p : String) (row : UserRow) (hf : fetchUser db u = some row) :
    verify_user H db u p = if H p row.salt = row.hashed then some row.id else none := by
  rw [verify_user, hf]

/-- C10: over a store with unique usernames, `verify_user` returns a user
id exactly when the row with the supplied username exists and the stored
hash equals the hash of the supplied password under the row's salt; in
every other case it returns `none`. The embedding takes the store as a
read-only value, matching the code's single `SELECT`. -/
theorem verify_user_iff (H : String → String → String) (db : List UserRow)
    (u p : String) (hn : (db.map (fun r => r.username)).Nodup) (uid : Nat) :
    verify_user H db u p = some uid ↔
      ∃ row ∈ db, row.username = u ∧ H p row.salt = row.hashed ∧ row.id = uid := by
  constructor
  · intro h
    cases hf : fetchUser db u with
    | none => rw [verify_user_none H db u p hf] at h; exact Option.noConfusion h
    | some row =>
      rw [verify_user_some H db u p row hf] at h
      rw [fetchUser] at hf
      split at h
      · next hhash =>
        obtain rfl : row.id = uid := Option.some.inj h
        refine ⟨row, List.mem_of_find?_eq_some hf, ?_, hhash, rfl⟩
        simpa using List.find?_some hf
      · exact Option.noConfusion h
  · rintro ⟨row, hmem, hu, hhash, hid⟩
    rw [verify_user_some H db u p row (find?_username_first hn hmem hu), if_pos hhash, hid]

/-- C10 witness: the one-row store accepts `admin`/`pw` and returns id 1. -/
theorem verify_user_iff_witness : verify_user c10Hash c10Db "admin" "pw" = some 1 :=
  (verify_user_iff c10Hash c10Db "admin" "pw" (by decide) 1).mpr
    ⟨{ id := 1, username := "admin", salt := "s1", hashed := "pbkdf2-pw-s1" },
     by decide, rfl, by decide, rfl⟩

/-- C7 witness: at the concrete selected subdirectory a navigation with a
succeeding probe clears the selection, and a successful delete clears it
too. -/
theorem nav_delete_clear_selection_witness :
    (handle_open_action navState (fun _ => true) []).1.selected = none
    ∧ (delete_selected_item navState (fun _ => (0, ""))).1.selected = none :=
  ⟨(nav_delete_clear_selection navState (fun _ => true) [] (fun _ => (0, "")) subdirItem).1
      rfl rfl rfl (by decide),
   (nav_delete_clear_selection navState (fun _ => true) [] (fun _ => (0, "")) subdirItem).2
      rfl rfl⟩
